import Mathlib

/-!
Shallow embedding of `src/app/similarity_calculator.py` from the
Nusantara-Finder repository (class `SimilarityCalculator` and its helper
functions), together with proofs of the specification claims about it.

Modelling conventions:
* Python floats are modelled exactly: as rationals (`ℚ`) where the code only
  forms ratios, and as reals (`ℝ`) where `math.sqrt` enters.
* Python dicts are modelled as association lists; a dict's keys are unique,
  which appears as a `Nodup` hypothesis where it matters.
* Python `str.lower` and `str.split()` are modelled structurally over the
  character list of the string (ASCII case folding, whitespace-run splitting
  that discards empty pieces, exactly as Python's no-argument `split`).
* The `rank_bm25.BM25Okapi` model is an external library the spec treats as a
  black box; its `get_scores` method is abstracted as an arbitrary function
  from the tokenized query to a list of raw scores, one per corpus position.
-/

namespace NusantaraFinder

/-- A Python dict mapping a term to its frequency in one document
(`doc_words_freq` in the source). -/
abbrev FreqTable := List (String × Nat)

/-- One entry of `combined_data`: the metadata dict of one document.  Every
field is optional because the Python code reads each one with `dict.get` and a
fallback literal. -/
structure DocData where
  title : Option String
  category : Option String
  date : Option String
  image_url : Option String
  url : Option String
  content : Option String
  deriving DecidableEq

/-- The empty metadata dict `{}` used by `combined_data.get(doc_id, {})`. -/
def DocData.empty : DocData := ⟨none, none, none, none, none, none⟩

/-- Python `str.lower()` (ASCII case folding), computed on the character
list so that concrete instances reduce definitionally. -/
def pyLower (s : String) : String := String.mk (s.toList.map Char.toLower)

/-- Helper for `pySplit`: walk the characters, accumulating the current word
in reverse; whitespace ends the current word, empty pieces are dropped —
exactly the behaviour of Python's no-argument `str.split()`. -/
def splitWhitespaceAux : List Char → List Char → List String
  | [], [] => []
  | [], acc => [String.mk acc.reverse]
  | c :: cs, acc =>
    if c.isWhitespace then
      match acc with
      | [] => splitWhitespaceAux cs []
      | _ => String.mk acc.reverse :: splitWhitespaceAux cs []
    else splitWhitespaceAux cs (c :: acc)

/-- Python `str.split()` with no argument: split on whitespace runs,
discarding empty pieces. -/
def pySplit (s : String) : List String := splitWhitespaceAux s.toList []

/-- `SimilarityCalculator.preprocess_query`: lowercase, split on whitespace,
drop tokens of length ≤ 1. -/
def preprocess_query (query : String) : List String :=
  let words := pySplit (pyLower query)
  words.filter (fun w => w.length > 1)

/-- The set of distinct query tokens (`set(query_words)` in the source). -/
def querySet (query_words : List String) : Finset String := query_words.toFinset

/-- The set of terms of a document (`set(doc_words_freq.keys())`). -/
def docSet (doc_words_freq : FreqTable) : Finset String :=
  (doc_words_freq.map Prod.fst).toFinset

/-- `SimilarityCalculator.calculate_jaccard`: |A ∩ B| / |A ∪ B| over the two
term sets, with the empty-union guard returning 0.0. -/
def calculate_jaccard (query_words : List String) (doc_words_freq : FreqTable) : ℚ :=
  if (querySet query_words ∪ docSet doc_words_freq).card = 0 then 0
  else ((querySet query_words ∩ docSet doc_words_freq).card : ℚ)
    / ((querySet query_words ∪ docSet doc_words_freq).card : ℚ)

/-- The multiplicity of a word in the query (`Counter(query_words)[w]`). -/
def queryFreq (query_words : List String) (w : String) : Nat := query_words.count w

/-- A document's frequency for a word, 0 when absent
(`doc_words_freq[w]` under a membership guard). -/
def docFreq (doc_words_freq : FreqTable) (w : String) : Nat :=
  (doc_words_freq.lookup w).getD 0

/-- The `dot_product` local of `calculate_cosine`: iterate the distinct query
words, adding `query count × document count` for those present in the
document table. -/
noncomputable def dotProduct (query_words : List String) (doc_words_freq : FreqTable) : ℝ :=
  ∑ w ∈ querySet query_words,
    if (doc_words_freq.lookup w).isSome then
      (queryFreq query_words w : ℝ) * (docFreq doc_words_freq w : ℝ)
    else 0

/-- The `query_magnitude` local of `calculate_cosine`:
`sqrt(Σ count² over the query's Counter values)`. -/
noncomputable def queryMagnitude (query_words : List String) : ℝ :=
  Real.sqrt (∑ w ∈ querySet query_words, (queryFreq query_words w : ℝ) ^ 2)

/-- The `doc_magnitude` local of `calculate_cosine`:
`sqrt(Σ freq² over the whole document table)`. -/
noncomputable def docMagnitude (doc_words_freq : FreqTable) : ℝ :=
  Real.sqrt ((doc_words_freq.map (fun p => (p.2 : ℝ) ^ 2)).sum)

/-- `SimilarityCalculator.calculate_cosine`: dot product over the distinct
query words that occur in the document, divided by the product of the two
Euclidean magnitudes, with a zero-magnitude guard returning 0.0. -/
noncomputable def calculate_cosine (query_words : List String)
    (doc_words_freq : FreqTable) : ℝ :=
  if queryMagnitude query_words = 0 ∨ docMagnitude doc_words_freq = 0 then 0
  else dotProduct query_words doc_words_freq /
    (queryMagnitude query_words * docMagnitude doc_words_freq)

/-- Python `max(l)` for a nonempty list, with the source's fallback `1` for
the empty case (`max(raw_scores) if len(raw_scores) > 0 else 1`). -/
def listMax : List ℚ → ℚ
  | [] => 1
  | h :: t => t.foldl max h

/-- Python `min(l)` for a nonempty list, with the source's fallback `0`. -/
def listMin : List ℚ → ℚ
  | [] => 0
  | h :: t => t.foldl min h

/-- `SimilarityCalculator.calculate_bm25`, parametrized by the raw scores the
external BM25 model returned and the corpus position map `bm25_id_map`:
min-max normalization of the raw batch, all zeros when the range is zero. -/
def calculate_bm25 (raw_scores : List ℚ) (id_map : List ℕ) : List (ℕ × ℚ) :=
  if listMax raw_scores - listMin raw_scores = 0 then
    (List.range raw_scores.length).map (fun i => (id_map.getD i 0, (0 : ℚ)))
  else
    (List.range raw_scores.length).map
      (fun i => (id_map.getD i 0,
        (raw_scores.getD i 0 - listMin raw_scores)
          / (listMax raw_scores - listMin raw_scores)))

/-- The state a `SimilarityCalculator` instance carries: the inverted index
(`{doc_id: {word: freq}}`) and the metadata store (`combined_data`), both
supplied at construction, plus the external `rank_bm25` model abstracted as
the function `bm25_raw` from a tokenized query to one raw score per corpus
position (`self.bm25_model.get_scores`). -/
structure SimilarityCalculator where
  inverted_index : List (ℕ × FreqTable)
  combined_data : List (ℕ × DocData)
  bm25_raw : List String → List ℚ

/-- `self.bm25_id_map`: built by `_build_bm25` in one pass over the inverted
index items, so it is the list of document ids in index order. -/
def SimilarityCalculator.bm25_id_map (c : SimilarityCalculator) : List ℕ :=
  c.inverted_index.map Prod.fst

/-- One element of the list `search` returns. -/
structure SearchResult where
  content_id : ℕ
  title : String
  similarity : ℝ
  category : String
  date : String
  image_url : String
  url : String
  content : String

/-- The category filter of `search`: Python enters the filter only when
`target_category` is truthy (not `None` and not `""`), and then skips the
document when `doc_data.get('category', '').lower()` differs from
`target_category.lower()`. -/
def categoryBlocks (target_category : Option String) (doc_data : DocData) : Bool :=
  match target_category with
  | none => false
  | some t =>
    if t = "" then false
    else decide (pyLower (doc_data.category.getD "") ≠ pyLower t)

/-- The per-document similarity dispatch inside `search`'s loop: jaccard,
cosine, bm25 lookup with default 0.0, and the silent 0.0 fallback for any
other selector. -/
noncomputable def dispatchSimilarity (algorithm : String) (query_words : List String)
    (bm25_scores : List (ℕ × ℚ)) (doc_id : ℕ) (doc_words_freq : FreqTable) : ℝ :=
  if algorithm = "jaccard" then ((calculate_jaccard query_words doc_words_freq : ℚ) : ℝ)
  else if algorithm = "cosine" then calculate_cosine query_words doc_words_freq
  else if algorithm = "bm25" then (((bm25_scores.lookup doc_id).getD 0 : ℚ) : ℝ)
  else 0

/-- The `SearchResult` record `search` appends for a document that passed
both filters, populated with the `dict.get` fallback literals. -/
def mkResult (doc_id : ℕ) (doc_data : DocData) (similarity : ℝ) : SearchResult :=
  { content_id := doc_id
    title := doc_data.title.getD "Unknown Title"
    similarity := similarity
    category := doc_data.category.getD "Unknown Category"
    date := doc_data.date.getD "Unknown Date"
    image_url := doc_data.image_url.getD ""
    url := doc_data.url.getD ""
    content := doc_data.content.getD "" }

/-- One iteration of `search`'s document loop, for the index entry `p`:
`none` when the category filter or the minimum-similarity filter skips the
document, otherwise the emitted `SearchResult`. -/
noncomputable def processDoc (c : SimilarityCalculator) (query_words : List String)
    (algorithm : String) (target_category : Option String) (min_similarity : ℝ)
    (bm25_scores : List (ℕ × ℚ)) (p : ℕ × FreqTable) : Option SearchResult :=
  if categoryBlocks target_category ((c.combined_data.lookup p.1).getD DocData.empty) then
    none
  else if min_similarity ≤ dispatchSimilarity algorithm query_words bm25_scores p.1 p.2 then
    some (mkResult p.1 ((c.combined_data.lookup p.1).getD DocData.empty)
      (dispatchSimilarity algorithm query_words bm25_scores p.1 p.2))
  else none

/-- The BM25 score table `search` precomputes: filled only when the selector
is `"bm25"` (Python binds `bm25_scores` only inside that branch). -/
noncomputable def searchBm25Scores (c : SimilarityCalculator) (query_words : List String)
    (algorithm : String) : List (ℕ × ℚ) :=
  if algorithm = "bm25" then calculate_bm25 (c.bm25_raw query_words) c.bm25_id_map
  else []

/-- `SimilarityCalculator.search`: preprocess the query (empty tokenization
returns `[]` at once), precompute BM25 scores when that algorithm is chosen,
then one pass over the inverted index applying the category filter, the
algorithm dispatch and the minimum-similarity filter, and finally a stable
sort by similarity descending (Python `list.sort(key=..., reverse=True)`). -/
noncomputable def search (c : SimilarityCalculator) (query : String)
    (algorithm : String) (target_category : Option String)
    (min_similarity : ℝ) : List SearchResult :=
  if preprocess_query query = [] then []
  else
    (c.inverted_index.filterMap (processDoc c (preprocess_query query) algorithm
        target_category min_similarity
        (searchBm25Scores c (preprocess_query query) algorithm))).mergeSort
      (fun a b => decide (b.similarity ≤ a.similarity))

/-- `format_similarity_percentage` multiplies by 100 before rendering; only
the numeric part is modelled (string formatting of floats is not). -/
def format_similarity_value (similarity_score : ℚ) : ℚ := similarity_score * 100

/-! ## Claims -/

/-- Claim C4: `calculate_jaccard` returns |query set ∩ doc set| / |query set ∪
doc set| in [0,1]; it is 0.0 when the union is empty or the sets are disjoint,
1.0 when the sets are equal and non-empty, and it ignores frequencies (it
depends on the document table only through its key set). -/
theorem calculate_jaccard_spec (q : List String) (d : FreqTable) :
    (0 ≤ calculate_jaccard q d ∧ calculate_jaccard q d ≤ 1) ∧
    (querySet q ∪ docSet d = ∅ → calculate_jaccard q d = 0) ∧
    (querySet q ∩ docSet d = ∅ → calculate_jaccard q d = 0) ∧
    (querySet q = docSet d → querySet q ≠ ∅ → calculate_jaccard q d = 1) ∧
    (∀ d2 : FreqTable, docSet d2 = docSet d → calculate_jaccard q d2 = calculate_jaccard q d) := by
  have hmono : (querySet q ∩ docSet d).card ≤ (querySet q ∪ docSet d).card :=
    Finset.card_le_card (Finset.inter_subset_left.trans Finset.subset_union_left)
  refine ⟨⟨?_, ?_⟩, ?_, ?_, ?_, ?_⟩
  · unfold calculate_jaccard
    split
    · exact le_refl 0
    · positivity
  · unfold calculate_jaccard
    split
    · exact zero_le_one
    · rename_i hu
      rw [div_le_one (by exact_mod_cast Nat.pos_of_ne_zero hu)]
      exact_mod_cast hmono
  · intro h
    unfold calculate_jaccard
    simp [h]
  · intro h
    unfold calculate_jaccard
    simp [h]
  · intro heq hne
    unfold calculate_jaccard
    have h1 : querySet q ∩ docSet d = querySet q := by rw [heq, Finset.inter_self]
    have h2 : querySet q ∪ docSet d = querySet q := by rw [heq, Finset.union_self]
    have hc : (querySet q).card ≠ 0 := by
      simpa [Finset.card_eq_zero] using hne
    rw [h1, h2]
    simp [hc, div_self, Nat.cast_ne_zero]
  · intro d2 h2
    unfold calculate_jaccard
    rw [h2]

theorem le_foldl_max (l : List ℚ) (a : ℚ) : a ≤ l.foldl max a := by
  induction l generalizing a with
  | nil => exact le_refl a
  | cons h t ih => exact le_trans (le_max_left a h) (ih (max a h))

theorem mem_le_foldl_max (l : List ℚ) (a x : ℚ) (hx : x ∈ l) : x ≤ l.foldl max a := by
  induction l generalizing a with
  | nil => cases hx
  | cons h t ih =>
    rcases List.mem_cons.mp hx with rfl | hx2
    · exact le_trans (le_max_right a x) (le_foldl_max t (max a x))
    · exact ih (max a h) hx2

theorem foldl_min_le (l : List ℚ) (a : ℚ) : l.foldl min a ≤ a := by
  induction l generalizing a with
  | nil => exact le_refl a
  | cons h t ih => exact le_trans (ih (min a h)) (min_le_left a h)

theorem foldl_min_le_mem (l : List ℚ) (a x : ℚ) (hx : x ∈ l) : l.foldl min a ≤ x := by
  induction l generalizing a with
  | nil => cases hx
  | cons h t ih =>
    rcases List.mem_cons.mp hx with rfl | hx2
    · exact le_trans (foldl_min_le t (min a x)) (min_le_right a x)
    · exact ih (min a h) hx2

/-- Every member of a list is at most its Python `max`. -/
theorem mem_le_listMax (l : List ℚ) (x : ℚ) (hx : x ∈ l) : x ≤ listMax l := by
  cases l with
  | nil => cases hx
  | cons h t =>
    rcases List.mem_cons.mp hx with rfl | hx2
    · exact le_foldl_max t x
    · exact mem_le_foldl_max t h x hx2

/-- Every member of a list is at least its Python `min`. -/
theorem listMin_le_mem (l : List ℚ) (x : ℚ) (hx : x ∈ l) : listMin l ≤ x := by
  cases l with
  | nil => cases hx
  | cons h t =>
    rcases List.mem_cons.mp hx with rfl | hx2
    · exact foldl_min_le t x
    · exact foldl_min_le_mem t h x hx2

/-- The entry of `calculate_bm25` at corpus position `i`. -/
theorem calculate_bm25_getD (raw : List ℚ) (ids : List ℕ) (i : ℕ)
    (hi : i < raw.length) :
    (calculate_bm25 raw ids).getD i (0, 0) =
      (ids.getD i 0,
        if listMax raw - listMin raw = 0 then (0 : ℚ)
        else (raw.getD i 0 - listMin raw) / (listMax raw - listMin raw)) := by
  unfold calculate_bm25
  split <;>
    simp_all [List.getD_eq_getElem?_getD, List.getElem?_map, List.getElem?_range, hi]

/-- `calculate_bm25` emits one entry per raw score. -/
theorem calculate_bm25_length (raw : List ℚ) (ids : List ℕ) :
    (calculate_bm25 raw ids).length = raw.length := by
  unfold calculate_bm25
  split <;> simp

/-- Claim C1: `calculate_bm25` min-max-normalizes the raw batch scores: the
output pairs corpus position `i` with the identifier at position `i`; when the
batch maximum equals the batch minimum every score is 0.0, and otherwise
position `i` scores `(raw[i] - min) / (max - min)`, which lies in [0,1] and is
exactly 1.0 at a maximum raw score and exactly 0.0 at a minimum raw score. -/
theorem calculate_bm25_spec (raw : List ℚ) (ids : List ℕ) (i : ℕ)
    (hi : i < raw.length) :
    (calculate_bm25 raw ids).length = raw.length ∧
    ((calculate_bm25 raw ids).getD i (0, 0)).1 = ids.getD i 0 ∧
    (listMax raw = listMin raw → ((calculate_bm25 raw ids).getD i (0, 0)).2 = 0) ∧
    (listMax raw ≠ listMin raw →
      ((calculate_bm25 raw ids).getD i (0, 0)).2
          = (raw.getD i 0 - listMin raw) / (listMax raw - listMin raw) ∧
      0 ≤ ((calculate_bm25 raw ids).getD i (0, 0)).2 ∧
      ((calculate_bm25 raw ids).getD i (0, 0)).2 ≤ 1 ∧
      (raw.getD i 0 = listMax raw → ((calculate_bm25 raw ids).getD i (0, 0)).2 = 1) ∧
      (raw.getD i 0 = listMin raw → ((calculate_bm25 raw ids).getD i (0, 0)).2 = 0)) := by
  have hmem : raw.getD i 0 ∈ raw := by
    rw [List.getD_eq_getElem raw 0 hi]
    exact List.getElem_mem hi
  have hmin : listMin raw ≤ raw.getD i 0 := listMin_le_mem raw _ hmem
  have hmax : raw.getD i 0 ≤ listMax raw := mem_le_listMax raw _ hmem
  rw [calculate_bm25_getD raw ids i hi]
  refine ⟨calculate_bm25_length raw ids, rfl, ?_, ?_⟩
  · intro h
    simp [h]
  · intro h
    have hlt : 0 < listMax raw - listMin raw :=
      lt_of_le_of_ne (by linarith) (by simpa [sub_eq_zero, eq_comm] using h)
    have hne : listMax raw - listMin raw ≠ 0 := ne_of_gt hlt
    refine ⟨by simp [hne], ?_, ?_, ?_, ?_⟩
    · simp only [hne, if_false]
      exact div_nonneg (by linarith) (le_of_lt hlt)
    · simp only [hne, if_false]
      rw [div_le_one hlt]
      linarith
    · intro hm
      simp only [hne, if_false]
      rw [hm, div_self hne]
    · intro hm
      simp only [hne, if_false]
      rw [hm, sub_self, zero_div]

/-- Claim C2: whenever the query tokenizes to no tokens (in particular for
empty or whitespace-only input), `search` returns the empty list for every
algorithm selector, category filter and threshold. -/
theorem search_empty_query (c : SimilarityCalculator) (query algorithm : String)
    (target_category : Option String) (min_similarity : ℝ)
    (h : preprocess_query query = []) :
    search c query algorithm target_category min_similarity = [] := by
  unfold search
  simp [h]

/-- Claim C9: an empty-string category filter behaves exactly like no category
filter at all, for every query, algorithm and threshold. -/
theorem search_empty_category_filter (c : SimilarityCalculator)
    (query algorithm : String) (min_similarity : ℝ) :
    search c query algorithm (some "") min_similarity
      = search c query algorithm none min_similarity := by
  have hpd : processDoc c (preprocess_query query) algorithm (some "") min_similarity
      (searchBm25Scores c (preprocess_query query) algorithm)
      = processDoc c (preprocess_query query) algorithm none min_similarity
        (searchBm25Scores c (preprocess_query query) algorithm) := by
    funext p
    unfold processDoc categoryBlocks
    simp
  unfold search
  rw [hpd]

/-- Decomposition of membership in a `search` result list: every result comes
from an index entry that passed the category filter and the threshold filter,
and is the record `search` builds for that entry. -/
theorem of_mem_search (c : SimilarityCalculator) (query algorithm : String)
    (target_category : Option String) (min_similarity : ℝ) (r : SearchResult)
    (hr : r ∈ search c query algorithm target_category min_similarity) :
    ∃ p, p ∈ c.inverted_index ∧
      categoryBlocks target_category
        ((c.combined_data.lookup p.1).getD DocData.empty) = false ∧
      min_similarity ≤ dispatchSimilarity algorithm (preprocess_query query)
        (searchBm25Scores c (preprocess_query query) algorithm) p.1 p.2 ∧
      r = mkResult p.1 ((c.combined_data.lookup p.1).getD DocData.empty)
        (dispatchSimilarity algorithm (preprocess_query query)
          (searchBm25Scores c (preprocess_query query) algorithm) p.1 p.2) := by
  unfold search at hr
  by_cases hq : preprocess_query query = []
  · rw [if_pos hq] at hr
    cases hr
  · rw [if_neg hq, List.mem_mergeSort] at hr
    obtain ⟨p, hp, hfp⟩ := List.mem_filterMap.mp hr
    refine ⟨p, hp, ?_⟩
    unfold processDoc at hfp
    by_cases hcb : categoryBlocks target_category
        ((c.combined_data.lookup p.1).getD DocData.empty)
    · rw [if_pos hcb] at hfp
      cases hfp
    · rw [if_neg hcb] at hfp
      by_cases hms : min_similarity ≤ dispatchSimilarity algorithm
          (preprocess_query query)
          (searchBm25Scores c (preprocess_query query) algorithm) p.1 p.2
      · rw [if_pos hms] at hfp
        exact ⟨Bool.of_not_eq_true hcb, hms, (Option.some_inj.mp hfp).symm⟩
      · rw [if_neg hms] at hfp
        cases hfp

/-- Claim C3: every emitted result passed both filters: under a truthy
category filter the result's document has a stored category (empty string
when metadata is missing) equal to the filter case-insensitively, and the
result's similarity is at least the `min_similarity` threshold. -/
theorem search_results_pass_filters (c : SimilarityCalculator)
    (query algorithm : String) (target_category : Option String)
    (min_similarity : ℝ) (r : SearchResult)
    (hr : r ∈ search c query algorithm target_category min_similarity) :
    (∀ t, target_category = some t → t ≠ "" →
      pyLower (((c.combined_data.lookup r.content_id).getD
        DocData.empty).category.getD "") = pyLower t) ∧
    min_similarity ≤ r.similarity := by
  obtain ⟨p, _, hcb, hms, hrmk⟩ :=
    of_mem_search c query algorithm target_category min_similarity r hr
  have hid : r.content_id = p.1 := by rw [hrmk]; rfl
  have hsim : r.similarity = dispatchSimilarity algorithm (preprocess_query query)
      (searchBm25Scores c (preprocess_query query) algorithm) p.1 p.2 := by
    rw [hrmk]; rfl
  constructor
  · intro t ht hne
    rw [ht] at hcb
    simp only [categoryBlocks, if_neg hne, decide_eq_false_iff_not, not_not] at hcb
    rw [hid]
    exact hcb
  · rw [hsim]
    exact hms

/-- Claim C7: an algorithm selector other than `jaccard`, `cosine` and `bm25`
is not an error; the similarity dispatch yields 0.0 for every document, so
every result `search` emits under such a selector has similarity exactly
0.0. -/
theorem search_unknown_algorithm (c : SimilarityCalculator)
    (query algorithm : String) (target_category : Option String)
    (min_similarity : ℝ)
    (halg : algorithm ≠ "jaccard" ∧ algorithm ≠ "cosine" ∧ algorithm ≠ "bm25") :
    (∀ (query_words : List String) (bm25_scores : List (ℕ × ℚ)) (doc_id : ℕ)
      (fr : FreqTable),
      dispatchSimilarity algorithm query_words bm25_scores doc_id fr = 0) ∧
    (∀ r ∈ search c query algorithm target_category min_similarity,
      r.similarity = 0) := by
  have hdisp : ∀ (query_words : List String) (bm25_scores : List (ℕ × ℚ))
      (doc_id : ℕ) (fr : FreqTable),
      dispatchSimilarity algorithm query_words bm25_scores doc_id fr = 0 := by
    intro query_words bm25_scores doc_id fr
    unfold dispatchSimilarity
    rw [if_neg halg.1, if_neg halg.2.1, if_neg halg.2.2]
  refine ⟨hdisp, fun r hr => ?_⟩
  obtain ⟨p, _, _, _, hrmk⟩ :=
    of_mem_search c query algorithm target_category min_similarity r hr
  have hsim : r.similarity = dispatchSimilarity algorithm (preprocess_query query)
      (searchBm25Scores c (preprocess_query query) algorithm) p.1 p.2 := by
    rw [hrmk]; rfl
  rw [hsim]
  exact hdisp _ _ _ _

/-- Claim C8: for every input, the list `search` returns is sorted by
similarity in descending order (each result's similarity is at least the
next one's). -/
theorem search_sorted_descending (c : SimilarityCalculator)
    (query algorithm : String) (target_category : Option String)
    (min_similarity : ℝ) :
    (search c query algorithm target_category min_similarity).Pairwise
      (fun a b => b.similarity ≤ a.similarity) := by
  unfold search
  split
  · exact List.Pairwise.nil
  · have hs := @List.sorted_mergeSort SearchResult
      (fun a b : SearchResult => decide (b.similarity ≤ a.similarity))
      (fun a b c2 hab hbc => by
        simp only [decide_eq_true_eq] at hab hbc ⊢
        exact le_trans hbc hab)
      (fun a b => by
        simp only [Bool.or_eq_true, decide_eq_true_eq]
        exact le_total b.similarity a.similarity)
      (c.inverted_index.filterMap (processDoc c (preprocess_query query) algorithm
        target_category min_similarity
        (searchBm25Scores c (preprocess_query query) algorithm)))
    exact hs.imp (fun h => by simpa using h)

/-- The predicate deciding whether `search`'s loop emits a result for index
entry `p`: the category filter does not skip it and its similarity clears the
threshold. -/
noncomputable def passesFilters (c : SimilarityCalculator) (query_words : List String)
    (algorithm : String) (target_category : Option String) (min_similarity : ℝ)
    (bm25_scores : List (ℕ × ℚ)) (p : ℕ × FreqTable) : Bool :=
  !categoryBlocks target_category ((c.combined_data.lookup p.1).getD DocData.empty) &&
    decide (min_similarity ≤ dispatchSimilarity algorithm query_words bm25_scores p.1 p.2)

/-- `processDoc` emits a result exactly when `passesFilters` holds. -/
theorem processDoc_eq (c : SimilarityCalculator) (query_words : List String)
    (algorithm : String) (target_category : Option String) (min_similarity : ℝ)
    (bm25_scores : List (ℕ × ℚ)) (p : ℕ × FreqTable) :
    processDoc c query_words algorithm target_category min_similarity bm25_scores p
      = if passesFilters c query_words algorithm target_category min_similarity
          bm25_scores p then
          some (mkResult p.1 ((c.combined_data.lookup p.1).getD DocData.empty)
            (dispatchSimilarity algorithm query_words bm25_scores p.1 p.2))
        else none := by
  unfold processDoc passesFilters
  by_cases hcb : categoryBlocks target_category
      ((c.combined_data.lookup p.1).getD DocData.empty)
  · simp [hcb]
  · by_cases hms : min_similarity ≤ dispatchSimilarity algorithm query_words
        bm25_scores p.1 p.2
    · simp [hcb, hms]
    · simp [hcb, hms]

/-- The identifiers collected by `search`'s loop are exactly the identifiers
of the index entries passing both filters, in index order. -/
theorem filterMap_processDoc_ids (c : SimilarityCalculator) (query_words : List String)
    (algorithm : String) (target_category : Option String) (min_similarity : ℝ)
    (bm25_scores : List (ℕ × ℚ)) (l : List (ℕ × FreqTable)) :
    (l.filterMap (processDoc c query_words algorithm target_category min_similarity
        bm25_scores)).map (fun r => r.content_id)
      = (l.filter (passesFilters c query_words algorithm target_category min_similarity
          bm25_scores)).map Prod.fst := by
  induction l with
  | nil => rfl
  | cons p t ih =>
    rw [List.filterMap_cons, List.filter_cons, processDoc_eq]
    cases hp : passesFilters c query_words algorithm target_category min_similarity
        bm25_scores p
    · simpa using ih
    · simp only [if_true]
      rw [List.map_cons, List.map_cons]
      exact congrArg (List.cons p.1) ih

/-- Claim C10: for every non-empty tokenized query, `search` emits exactly one
result per index document that passes the category filter and the threshold:
its result identifiers are a permutation of the identifiers of the passing
index entries (a permutation, because the output is re-sorted), and — the
index being a dict with distinct keys — no identifier appears twice. -/
theorem search_one_result_per_document (c : SimilarityCalculator)
    (query algorithm : String) (target_category : Option String)
    (min_similarity : ℝ)
    (hq : preprocess_query query ≠ [])
    (hnd : (c.inverted_index.map Prod.fst).Nodup) :
    ((search c query algorithm target_category min_similarity).map
        (fun r => r.content_id)).Perm
      ((c.inverted_index.filter (passesFilters c (preprocess_query query) algorithm
          target_category min_similarity
          (searchBm25Scores c (preprocess_query query) algorithm))).map Prod.fst) ∧
    ((search c query algorithm target_category min_similarity).map
      (fun r => r.content_id)).Nodup := by
  have hsearch : search c query algorithm target_category min_similarity
      = (c.inverted_index.filterMap (processDoc c (preprocess_query query) algorithm
          target_category min_similarity
          (searchBm25Scores c (preprocess_query query) algorithm))).mergeSort
        (fun a b => decide (b.similarity ≤ a.similarity)) := by
    unfold search
    rw [if_neg hq]
  have hperm : ((search c query algorithm target_category min_similarity).map
      (fun r => r.content_id)).Perm
      ((c.inverted_index.filter (passesFilters c (preprocess_query query) algorithm
          target_category min_similarity
          (searchBm25Scores c (preprocess_query query) algorithm))).map Prod.fst) := by
    rw [hsearch, ← filterMap_processDoc_ids]
    exact (List.mergeSort_perm _ _).map (fun r : SearchResult => r.content_id)
  refine ⟨hperm, ?_⟩
  have hsub : ((c.inverted_index.filter (passesFilters c (preprocess_query query)
      algorithm target_category min_similarity
      (searchBm25Scores c (preprocess_query query) algorithm))).map Prod.fst).Sublist
      (c.inverted_index.map Prod.fst) :=
    (List.filter_sublist c.inverted_index).map Prod.fst
  exact hperm.nodup_iff.mpr (hsub.nodup hnd)

/-- `docFreq` on a cons cell. -/
theorem docFreq_cons (k : String) (v : ℕ) (t : FreqTable) (w : String) :
    docFreq ((k, v) :: t) w = if w = k then v else docFreq t w := by
  unfold docFreq
  rw [List.lookup_cons]
  by_cases h : w = k
  · simp [h]
  · simp [beq_eq_false_iff_ne.mpr h, h]

/-- A word absent from the document's keys has document frequency 0. -/
theorem docFreq_eq_zero_of_not_mem (d : FreqTable) (w : String)
    (hw : w ∉ docSet d) : docFreq d w = 0 := by
  induction d with
  | nil => rfl
  | cons p t ih =>
    have hw1 : w ≠ p.1 := by
      intro h
      apply hw
      simp [docSet, h]
    have hw2 : w ∉ docSet t := by
      intro h
      apply hw
      simp only [docSet, List.map_cons, List.mem_toFinset, List.mem_cons]
      exact Or.inr (by simpa [docSet] using h)
    rw [show p = (p.1, p.2) from rfl, docFreq_cons, if_neg hw1]
    exact ih hw2

/-- The `dot_product` loop sums `query count × document count` over all
distinct query words (absent words contribute 0 either way). -/
theorem dotProduct_eq_sum (q : List String) (d : FreqTable) :
    dotProduct q d
      = ∑ w ∈ querySet q, (queryFreq q w : ℝ) * (docFreq d w : ℝ) := by
  unfold dotProduct
  refine Finset.sum_congr rfl (fun w _ => ?_)
  by_cases h : (d.lookup w).isSome
  · rw [if_pos h]
  · rw [if_neg h]
    have hz : docFreq d w = 0 := by
      unfold docFreq
      rw [Option.not_isSome_iff_eq_none.mp h]
      rfl
    rw [hz]
    simp

/-- For a dict (distinct keys), the sum of squared frequencies over the table
entries is the sum of squared `docFreq` over the key set. -/
theorem docSumSq_eq_sum (d : FreqTable) (hnd : (d.map Prod.fst).Nodup) :
    (d.map (fun p => (p.2 : ℝ) ^ 2)).sum
      = ∑ w ∈ docSet d, (docFreq d w : ℝ) ^ 2 := by
  induction d with
  | nil => simp [docSet]
  | cons p t ih =>
    obtain ⟨k, v⟩ := p
    rw [List.map_cons] at hnd
    obtain ⟨hk, hnd2⟩ := List.nodup_cons.mp hnd
    have hk2 : k ∉ docSet t := by simpa [docSet] using hk
    have hins : docSet ((k, v) :: t) = insert k (docSet t) := by simp [docSet]
    rw [List.map_cons, List.sum_cons, hins, Finset.sum_insert hk2, ih hnd2]
    have h1 : docFreq ((k, v) :: t) k = v := by rw [docFreq_cons]; simp
    rw [h1]
    congr 1
    refine Finset.sum_congr rfl (fun w hw => ?_)
    have hwk : w ≠ k := fun h => hk2 (h ▸ hw)
    rw [docFreq_cons, if_neg hwk]

/-- The squared document frequencies seen from the query words are dominated
by the full-table sum of squared frequencies. -/
theorem sum_docFreq_sq_le (q : List String) (d : FreqTable)
    (hnd : (d.map Prod.fst).Nodup) :
    ∑ w ∈ querySet q, (docFreq d w : ℝ) ^ 2
      ≤ (d.map (fun p => (p.2 : ℝ) ^ 2)).sum := by
  rw [docSumSq_eq_sum d hnd]
  have hzero : ∀ w ∈ querySet q, w ∉ querySet q ∩ docSet d →
      ((docFreq d w : ℝ) ^ 2) = 0 := by
    intro w hw hw2
    have : w ∉ docSet d := fun hd2 => hw2 (Finset.mem_inter.mpr ⟨hw, hd2⟩)
    rw [docFreq_eq_zero_of_not_mem d w this]
    norm_num
  rw [← Finset.sum_subset Finset.inter_subset_left hzero]
  exact Finset.sum_le_sum_of_subset_of_nonneg Finset.inter_subset_right
    (fun w _ _ => sq_nonneg _)

/-- `dot_product` is non-negative. -/
theorem dotProduct_nonneg (q : List String) (d : FreqTable) :
    0 ≤ dotProduct q d := by
  rw [dotProduct_eq_sum]
  exact Finset.sum_nonneg (fun w _ => mul_nonneg (Nat.cast_nonneg _) (Nat.cast_nonneg _))

/-- Cauchy–Schwarz for the cosine numerator: the dot product is at most the
product of the two magnitudes. -/
theorem dotProduct_le_mul_magnitudes (q : List String) (d : FreqTable)
    (hnd : (d.map Prod.fst).Nodup) :
    dotProduct q d ≤ queryMagnitude q * docMagnitude d := by
  have hQ : (0 : ℝ) ≤ ∑ w ∈ querySet q, (queryFreq q w : ℝ) ^ 2 :=
    Finset.sum_nonneg (fun w _ => sq_nonneg _)
  have hcs : (dotProduct q d) ^ 2
      ≤ (∑ w ∈ querySet q, (queryFreq q w : ℝ) ^ 2)
        * ((d.map (fun p => (p.2 : ℝ) ^ 2)).sum) := by
    calc (dotProduct q d) ^ 2
        ≤ (∑ w ∈ querySet q, (queryFreq q w : ℝ) ^ 2)
            * (∑ w ∈ querySet q, (docFreq d w : ℝ) ^ 2) := by
          rw [dotProduct_eq_sum]
          exact Finset.sum_mul_sq_le_sq_mul_sq (querySet q) _ _
      _ ≤ _ := by
          exact mul_le_mul_of_nonneg_left (sum_docFreq_sq_le q d hnd) hQ
  calc dotProduct q d
      = Real.sqrt ((dotProduct q d) ^ 2) := (Real.sqrt_sq (dotProduct_nonneg q d)).symm
    _ ≤ Real.sqrt ((∑ w ∈ querySet q, (queryFreq q w : ℝ) ^ 2)
          * ((d.map (fun p => (p.2 : ℝ) ^ 2)).sum)) := Real.sqrt_le_sqrt hcs
    _ = queryMagnitude q * docMagnitude d := Real.sqrt_mul hQ _

/-- Claim C5: `calculate_cosine` is the dot product over shared terms divided
by the product of the magnitudes; it lies in [0,1]; it is exactly 0.0 when
either magnitude is 0 or the query and document share no terms. -/
theorem calculate_cosine_spec (q : List String) (d : FreqTable)
    (hnd : (d.map Prod.fst).Nodup) :
    (queryMagnitude q ≠ 0 → docMagnitude d ≠ 0 →
      calculate_cosine q d
        = dotProduct q d / (queryMagnitude q * docMagnitude d)) ∧
    (0 ≤ calculate_cosine q d ∧ calculate_cosine q d ≤ 1) ∧
    ((queryMagnitude q = 0 ∨ docMagnitude d = 0) → calculate_cosine q d = 0) ∧
    (querySet q ∩ docSet d = ∅ → calculate_cosine q d = 0) := by
  refine ⟨?_, ⟨?_, ?_⟩, ?_, ?_⟩
  · intro hq hd
    unfold calculate_cosine
    rw [if_neg (not_or.mpr ⟨hq, hd⟩)]
  · unfold calculate_cosine
    split
    · exact le_refl 0
    · exact div_nonneg (dotProduct_nonneg q d)
        (mul_nonneg (Real.sqrt_nonneg _) (Real.sqrt_nonneg _))
  · unfold calculate_cosine
    split
    · exact zero_le_one
    · rename_i hno
      rw [not_or] at hno
      have hqpos : 0 < queryMagnitude q :=
        lt_of_le_of_ne (Real.sqrt_nonneg _) (Ne.symm hno.1)
      have hdpos : 0 < docMagnitude d :=
        lt_of_le_of_ne (Real.sqrt_nonneg _) (Ne.symm hno.2)
      rw [div_le_one (mul_pos hqpos hdpos)]
      exact dotProduct_le_mul_magnitudes q d hnd
  · intro h
    unfold calculate_cosine
    rw [if_pos h]
  · intro h
    have hdot : dotProduct q d = 0 := by
      rw [dotProduct_eq_sum]
      refine Finset.sum_eq_zero (fun w hw => ?_)
      have hwd : w ∉ docSet d := by
        intro hd2
        have : w ∈ querySet q ∩ docSet d := Finset.mem_inter.mpr ⟨hw, hd2⟩
        rw [h] at this
        cases this
      rw [docFreq_eq_zero_of_not_mem d w hwd]
      simp
    unfold calculate_cosine
    split
    · rfl
    · rw [hdot, zero_div]

/-- Counterexample to claim C6 as stated: the empty document table is a
positive scalar multiple (factor 1) of the empty query's term counts over the
same (empty) term set, yet `calculate_cosine` returns 0.0, not 1.0, because
both magnitudes are zero. -/
theorem calculate_cosine_scalar_multiple_cex :
    (0 : ℚ) < 1 ∧
    docSet ([] : FreqTable) = querySet ([] : List String) ∧
    (∀ w ∈ querySet ([] : List String),
      (docFreq ([] : FreqTable) w : ℚ)
        = 1 * (queryFreq ([] : List String) w : ℚ)) ∧
    calculate_cosine [] [] ≠ 1 := by
  have h0 : calculate_cosine [] [] = 0 := by
    unfold calculate_cosine
    rw [if_pos (Or.inl (by unfold queryMagnitude; simp [querySet]))]
  refine ⟨one_pos, rfl, fun w hw => by simp [querySet] at hw, ?_⟩
  rw [h0]
  norm_num

/-- Claim C6 (amended: the query must be non-empty, otherwise both magnitudes
are zero and the code returns 0.0): when the document table assigns, over
exactly the query's term set, frequencies that are a positive scalar multiple
of the query's term counts, `calculate_cosine` returns exactly 1.0. -/
theorem calculate_cosine_scalar_multiple (q : List String) (d : FreqTable)
    (hnd : (d.map Prod.fst).Nodup) (c : ℚ) (hc : 0 < c)
    (hset : docSet d = querySet q)
    (hprop : ∀ w ∈ querySet q, (docFreq d w : ℚ) = c * (queryFreq q w : ℚ))
    (hq : q ≠ []) :
    calculate_cosine q d = 1 := by
  have hcR : (0 : ℝ) < (c : ℝ) := by exact_mod_cast hc
  have hpropR : ∀ w ∈ querySet q,
      (docFreq d w : ℝ) = (c : ℝ) * (queryFreq q w : ℝ) := by
    intro w hw
    exact_mod_cast congrArg (fun x : ℚ => (x : ℝ)) (hprop w hw)
  have hQpos : 0 < ∑ w ∈ querySet q, (queryFreq q w : ℝ) ^ 2 := by
    obtain ⟨w0, hw0⟩ := List.exists_mem_of_ne_nil q hq
    have hw0s : w0 ∈ querySet q := List.mem_toFinset.mpr hw0
    have hcount : 0 < queryFreq q w0 := List.count_pos_iff.mpr hw0
    have hterm : (0 : ℝ) < (queryFreq q w0 : ℝ) ^ 2 := by
      have : (0 : ℝ) < (queryFreq q w0 : ℝ) := by exact_mod_cast hcount
      positivity
    exact lt_of_lt_of_le hterm
      (Finset.single_le_sum (fun w _ => sq_nonneg ((queryFreq q w : ℝ))) hw0s)
  have hsq : 0 < Real.sqrt (∑ w ∈ querySet q, (queryFreq q w : ℝ) ^ 2) :=
    Real.sqrt_pos.mpr hQpos
  have hqm : queryMagnitude q
      = Real.sqrt (∑ w ∈ querySet q, (queryFreq q w : ℝ) ^ 2) := rfl
  have hD : (d.map (fun p => (p.2 : ℝ) ^ 2)).sum
      = (c : ℝ) ^ 2 * ∑ w ∈ querySet q, (queryFreq q w : ℝ) ^ 2 := by
    rw [docSumSq_eq_sum d hnd, hset, Finset.mul_sum]
    refine Finset.sum_congr rfl (fun w hw => ?_)
    rw [hpropR w hw]
    ring
  have hdm : docMagnitude d
      = (c : ℝ) * Real.sqrt (∑ w ∈ querySet q, (queryFreq q w : ℝ) ^ 2) := by
    unfold docMagnitude
    rw [hD, Real.sqrt_mul (sq_nonneg _), Real.sqrt_sq hcR.le]
  have hdot : dotProduct q d
      = (c : ℝ) * ∑ w ∈ querySet q, (queryFreq q w : ℝ) ^ 2 := by
    rw [dotProduct_eq_sum, Finset.mul_sum]
    refine Finset.sum_congr rfl (fun w hw => ?_)
    rw [hpropR w hw]
    ring
  unfold calculate_cosine
  rw [if_neg (not_or.mpr ⟨by rw [hqm]; exact ne_of_gt hsq,
    by rw [hdm]; exact ne_of_gt (mul_pos hcR hsq)⟩)]
  rw [hdot, hqm, hdm]
  have hden : Real.sqrt (∑ w ∈ querySet q, (queryFreq q w : ℝ) ^ 2)
      * ((c : ℝ) * Real.sqrt (∑ w ∈ querySet q, (queryFreq q w : ℝ) ^ 2))
      = (c : ℝ) * ∑ w ∈ querySet q, (queryFreq q w : ℝ) ^ 2 := by
    rw [mul_comm, mul_assoc, Real.mul_self_sqrt hQpos.le]
  rw [hden, div_self (ne_of_gt (mul_pos hcR hQpos))]

/-! ## Concrete instances used to witness the claims -/

/-- Metadata of the sample document used in the witnesses. -/
def docData1 : DocData :=
  ⟨some "Pantai Bali", some "Wisata", some "2024-01-01", some "", some "",
    some "Pantai indah di Bali"⟩

/-- A one-document calculator instance used to witness the claims about
`search`. -/
noncomputable def calc1 : SimilarityCalculator :=
  ⟨[(1, [("ab", 2)])], [(1, docData1)], fun _ => [0]⟩

theorem calc1_jaccard_val : calculate_jaccard ["ab", "cd"] [("ab", 2)] = 1 / 2 := by
  simp only [calculate_jaccard]
  rw [(by decide : (querySet ["ab", "cd"] ∩ docSet [("ab", 2)]).card = 1)]
  rw [(by decide : (querySet ["ab", "cd"] ∪ docSet [("ab", 2)]).card = 2)]
  norm_num

theorem calc1_search_eval : search calc1 "ab cd" "jaccard" (some "wisata") 0
    = [mkResult 1 docData1 ((calculate_jaccard ["ab", "cd"] [("ab", 2)] : ℚ) : ℝ)] := by
  have hq : preprocess_query "ab cd" = ["ab", "cd"] := by decide
  have hdisp : dispatchSimilarity "jaccard" ["ab", "cd"]
      (searchBm25Scores calc1 ["ab", "cd"] "jaccard") 1 [("ab", 2)]
      = ((calculate_jaccard ["ab", "cd"] [("ab", 2)] : ℚ) : ℝ) := by
    unfold dispatchSimilarity
    rw [if_pos rfl]
  have hpass : passesFilters calc1 ["ab", "cd"] "jaccard" (some "wisata") 0
      (searchBm25Scores calc1 ["ab", "cd"] "jaccard") (1, [("ab", 2)]) = true := by
    unfold passesFilters
    rw [(by decide : categoryBlocks (some "wisata")
      ((calc1.combined_data.lookup (1, [("ab", 2)]).1).getD DocData.empty) = false)]
    have h0 : (0 : ℝ) ≤ dispatchSimilarity "jaccard" ["ab", "cd"]
        (searchBm25Scores calc1 ["ab", "cd"] "jaccard") 1 [("ab", 2)] := by
      rw [hdisp, calc1_jaccard_val]
      norm_num
    simp only [Bool.not_false, Bool.true_and]
    exact decide_eq_true h0
  unfold search
  rw [hq, if_neg (by decide : ¬ (["ab", "cd"] = ([] : List String)))]
  have hidx : calc1.inverted_index = [(1, [("ab", 2)])] := rfl
  rw [hidx, List.filterMap_cons, List.filterMap_nil, processDoc_eq, hpass]
  rw [if_pos rfl]
  rw [List.mergeSort_singleton]
  have hdd : (calc1.combined_data.lookup (1, [("ab", 2)]).1).getD DocData.empty
      = docData1 := by decide
  rw [hdd, hdisp]

theorem calc1_search_foo_eval : search calc1 "ab cd" "foo" none 0
    = [mkResult 1 docData1 0] := by
  have hq : preprocess_query "ab cd" = ["ab", "cd"] := by decide
  have hdisp : dispatchSimilarity "foo" ["ab", "cd"]
      (searchBm25Scores calc1 ["ab", "cd"] "foo") 1 [("ab", 2)] = 0 := by
    unfold dispatchSimilarity
    rw [if_neg (by decide : ¬ ("foo" = "jaccard")),
      if_neg (by decide : ¬ ("foo" = "cosine")),
      if_neg (by decide : ¬ ("foo" = "bm25"))]
  have hpass : passesFilters calc1 ["ab", "cd"] "foo" none 0
      (searchBm25Scores calc1 ["ab", "cd"] "foo") (1, [("ab", 2)]) = true := by
    unfold passesFilters
    rw [(by decide : categoryBlocks none
      ((calc1.combined_data.lookup (1, [("ab", 2)]).1).getD DocData.empty) = false)]
    have h0 : (0 : ℝ) ≤ dispatchSimilarity "foo" ["ab", "cd"]
        (searchBm25Scores calc1 ["ab", "cd"] "foo") 1 [("ab", 2)] := by
      rw [hdisp]
    simp only [Bool.not_false, Bool.true_and]
    exact decide_eq_true h0
  unfold search
  rw [hq, if_neg (by decide : ¬ (["ab", "cd"] = ([] : List String)))]
  have hidx : calc1.inverted_index = [(1, [("ab", 2)])] := rfl
  rw [hidx, List.filterMap_cons, List.filterMap_nil, processDoc_eq, hpass]
  rw [if_pos rfl]
  rw [List.mergeSort_singleton]
  have hdd : (calc1.combined_data.lookup (1, [("ab", 2)]).1).getD DocData.empty
      = docData1 := by decide
  rw [hdd, hdisp]

/-! ## Witnesses -/

/-- Witness for claim C1, at raw scores `[0, 1]` and identifiers `[10, 20]`:
position 1 holds the maximum and scores exactly 1. -/
theorem calculate_bm25_spec_witness :
    ((calculate_bm25 [0, 1] [10, 20]).getD 1 (0, 0)).2 = 1 :=
  ((calculate_bm25_spec [0, 1] [10, 20] 1 (by norm_num)).2.2.2
    (by norm_num [listMax, listMin])).2.2.2.1 (by norm_num [listMax, listMin])

/-- Witness for claim C2: a whitespace-and-short-token query yields no
results. -/
theorem search_empty_query_witness :
    search calc1 " a  " "bm25" (some "Wisata") (1 / 100) = [] :=
  search_empty_query calc1 " a  " "bm25" (some "Wisata") (1 / 100) (by decide)

/-- Witness for claim C3 on the concrete one-document search: the emitted
result matches the category filter case-insensitively and clears the
threshold. -/
theorem search_results_pass_filters_witness :
    pyLower (((calc1.combined_data.lookup (mkResult 1 docData1
        ((calculate_jaccard ["ab", "cd"] [("ab", 2)] : ℚ) : ℝ)).content_id).getD
      DocData.empty).category.getD "") = pyLower "wisata" ∧
    (0 : ℝ) ≤ (mkResult 1 docData1
      ((calculate_jaccard ["ab", "cd"] [("ab", 2)] : ℚ) : ℝ)).similarity := by
  have h := search_results_pass_filters calc1 "ab cd" "jaccard" (some "wisata") 0
    (mkResult 1 docData1 ((calculate_jaccard ["ab", "cd"] [("ab", 2)] : ℚ) : ℝ))
    (by rw [calc1_search_eval]; exact List.mem_singleton_self _)
  exact ⟨h.1 "wisata" rfl (by decide), h.2⟩

/-- Witness for claim C4: identical non-empty term sets give Jaccard exactly
1.0. -/
theorem calculate_jaccard_spec_witness :
    calculate_jaccard ["ab"] [("ab", 1)] = 1 :=
  (calculate_jaccard_spec ["ab"] [("ab", 1)]).2.2.2.1 (by decide) (by decide)

/-- Witness for claim C5 at a concrete query and document table: the cosine
similarity lies in [0,1]. -/
theorem calculate_cosine_spec_witness :
    0 ≤ calculate_cosine ["ab"] [("ab", 2)] ∧
      calculate_cosine ["ab"] [("ab", 2)] ≤ 1 :=
  (calculate_cosine_spec ["ab"] [("ab", 2)] (by decide)).2.1

/-- Witness for amended claim C6: the document table `{ab: 2}` is twice the
query counter of `["ab"]`, and the cosine similarity is exactly 1.0. -/
theorem calculate_cosine_scalar_multiple_witness :
    calculate_cosine ["ab"] [("ab", 2)] = 1 :=
  calculate_cosine_scalar_multiple ["ab"] [("ab", 2)] (by decide) 2 (by norm_num)
    (by decide)
    (fun w hw => by
      have hww : w = "ab" := by simpa [querySet] using hw
      subst hww
      rw [(by decide : docFreq [("ab", 2)] "ab" = 2),
        (by decide : queryFreq ["ab"] "ab" = 1)]
      norm_num)
    (by decide)

/-- Witness for claim C7: under the unknown selector `"foo"` the emitted
result has similarity exactly 0.0. -/
theorem search_unknown_algorithm_witness :
    (mkResult 1 docData1 0).similarity = 0 :=
  (search_unknown_algorithm calc1 "ab cd" "foo" none 0
    (by refine ⟨?_, ?_, ?_⟩ <;> decide)).2 (mkResult 1 docData1 0)
    (by rw [calc1_search_foo_eval]; exact List.mem_singleton_self _)

/-- Witness for claim C10 on the concrete one-document search: the result
identifiers are a duplicate-free permutation of the passing index keys. -/
theorem search_one_result_per_document_witness :
    ((search calc1 "ab cd" "jaccard" (some "wisata") 0).map
        (fun r => r.content_id)).Perm
      ((calc1.inverted_index.filter (passesFilters calc1
          (preprocess_query "ab cd") "jaccard" (some "wisata") 0
          (searchBm25Scores calc1 (preprocess_query "ab cd") "jaccard"))).map
        Prod.fst) ∧
    ((search calc1 "ab cd" "jaccard" (some "wisata") 0).map
      (fun r => r.content_id)).Nodup :=
  search_one_result_per_document calc1 "ab cd" "jaccard" (some "wisata") 0
    (by decide) (by decide)

end NusantaraFinder
